import Mathlib

/-!
Shallow embedding of the request-handling pipeline of
`go-ansible-executor/main.go` (NATS worker that turns `db.install`
messages into `ansible-playbook` runs and publishes one status per
message).

Modelling conventions:

* Go strings are modelled as `List Char`, one element per rune.  The
  string operations used by the program (`TrimSpace`, `ToLower`,
  `ReplaceAll` on one-rune patterns, `HasPrefix`, the regexp
  `[^a-z0-9_]+` deletion, slicing and `len` on ASCII data) are
  translated rune by rune; comments note the few spots where exotic
  Unicode behaviour is approximated.
* The effectful calls (`json.Unmarshal`, `os.MkdirAll`, `os.WriteFile`,
  `os.Stat`, `cmd.Run`) are driven by an explicit environment `Env`
  describing the outcome of each external call for the one message
  being handled.  `os.WriteFile` is modelled as atomic (on failure no
  file is left behind) and the deferred `os.Remove` as succeeding;
  `handleMessage` returns a `Trace` recording every published status and
  the inventory-artifact lifecycle (created / still existing at the
  end / whether the process runner was reached).
* The Go `Timestamp` field (wall-clock time) is not modelled.
-/

/-- The rune list of a Lean string literal; used to write Go string
literals. -/
def str (s : String) : List Char := s.data

/-- `maxOutputBytes` from main.go: limit for published ansible output. -/
def maxOutputBytes : Nat := 10000

/-- The white-space set of `unicode.IsSpace`, as used by
`strings.TrimSpace`. -/
def goIsSpace (c : Char) : Bool :=
  decide (c.toNat = 9 ∨ c.toNat = 10 ∨ c.toNat = 11 ∨ c.toNat = 12 ∨ c.toNat = 13 ∨
    c.toNat = 32 ∨ c.toNat = 133 ∨ c.toNat = 160 ∨ c.toNat = 5760 ∨
    (8192 ≤ c.toNat ∧ c.toNat ≤ 8202) ∨ c.toNat = 8232 ∨ c.toNat = 8233 ∨
    c.toNat = 8239 ∨ c.toNat = 8287 ∨ c.toNat = 12288)

/-- `strings.TrimSpace`: drop white space from both ends. -/
def trimSpace (s : List Char) : List Char :=
  ((s.dropWhile goIsSpace).reverse.dropWhile goIsSpace).reverse

/-- `strings.ToLower` (simple Unicode lower-casing).  ASCII letters are
lowered; the two non-ASCII code points whose lower case lands in ASCII
(U+0130 and U+212A) are mapped explicitly.  Every other non-ASCII rune
keeps a non-ASCII lower case under Go's `ToLower`, and each caller of
this function either strips such runes afterwards (`sanitizeName`) or
compares against a pure-ASCII literal (`selectPlaybook`), so they are
modelled as unchanged. -/
def goToLower (c : Char) : Char :=
  if 65 ≤ c.toNat ∧ c.toNat ≤ 90 then Char.ofNat (c.toNat + 32)
  else if c.toNat = 304 then 'i'
  else if c.toNat = 8490 then 'k'
  else c

/-- ASCII case folding used to model `strings.EqualFold` (exotic
non-ASCII folds such as U+017F are not modelled). -/
def asciiLower (c : Char) : Char :=
  if 65 ≤ c.toNat ∧ c.toNat ≤ 90 then Char.ofNat (c.toNat + 32) else c

/-- One step of `strings.EqualFold`: the two runes fold to the same rune. -/
def foldEq (a b : Char) : Bool := asciiLower a == asciiLower b

/-- `strings.EqualFold`. -/
def equalFold : List Char → List Char → Bool
  | [], [] => true
  | a :: s, b :: t => foldEq a b && equalFold s t
  | _, _ => false

/-- `strings.HasPrefix`. -/
def startsWith : List Char → List Char → Bool
  | _, [] => true
  | [], _ :: _ => false
  | c :: s, p :: ps => c == p && startsWith s ps

/-- The character class kept by `sanitizeName`'s regexp: the runes
matching `[a-z0-9_]` (everything else is deleted by
`re.ReplaceAllString(s, "")` with `re = [^a-z0-9_]+`). -/
def sanitizeKeep (c : Char) : Bool :=
  decide ((97 ≤ c.toNat ∧ c.toNat ≤ 122) ∨ (48 ≤ c.toNat ∧ c.toNat ≤ 57) ∨ c.toNat = 95)

/-- `sanitizeName` from main.go: lower-case the trimmed name, turn
spaces and hyphens into underscores, delete everything outside
`[a-z0-9_]`, and prepend `"db_"` when it is not already a prefix. -/
def sanitizeName (name : List Char) : List Char :=
  let s1 := (trimSpace name).map goToLower
  let s2 := s1.map (fun c => if c = ' ' then '_' else c)
  let s3 := s2.map (fun c => if c = '-' then '_' else c)
  let s4 := s3.filter sanitizeKeep
  if startsWith s4 (str "db_") then s4 else str "db_" ++ s4

/-- `truncate` from main.go: output larger than `max` bytes is cut at
`max` and the fixed marker is appended. -/
def truncate (s : List Char) (max : Nat) : List Char :=
  if s.length ≤ max then s else s.take max ++ str "\n...[truncated]..."

/-- Split on a one-rune separator (used to model the field loop of
`net/netip`'s IPv4 parsing). -/
def splitOnChar (sep : Char) : List Char → List (List Char)
  | [] => [[]]
  | c :: cs =>
    if c = sep then [] :: splitOnChar sep cs
    else
      match splitOnChar sep cs with
      | [] => [[c]]
      | h :: t => (c :: h) :: t

/-- ASCII decimal digit. -/
def isDigitCh (c : Char) : Bool := decide (48 ≤ c.toNat ∧ c.toNat ≤ 57)

/-- Decimal value of a digit field. -/
def fieldVal (f : List Char) : Nat := f.foldl (fun a c => a * 10 + (c.toNat - 48)) 0

/-- One IPv4 field per `netip.parseIPv4Fields`: non-empty, digits only,
no leading zero (a lone `"0"` is fine), value at most 255. -/
def ipv4FieldOk (f : List Char) : Bool :=
  !f.isEmpty && f.all isDigitCh &&
  (match f with
   | '0' :: _ :: _ => false
   | _ => true) &&
  decide (fieldVal f ≤ 255)

/-- `netip.parseIPv4`: exactly four valid dot-separated fields. -/
def parseIPv4Ok (s : List Char) : Bool :=
  let fs := splitOnChar '.' s
  fs.length == 4 && fs.all ipv4FieldOk

/-- ASCII hex digit (the ones accepted by `netip.parseIPv6`). -/
def isHexCh (c : Char) : Bool :=
  decide ((48 ≤ c.toNat ∧ c.toNat ≤ 57) ∨ (97 ≤ c.toNat ∧ c.toNat ≤ 102) ∨
    (65 ≤ c.toNat ∧ c.toNat ≤ 70))

/-- The checks `netip.parseIPv6` performs after its group loop ends with
`i` bytes filled: a short address needs an ellipsis, and an ellipsis in
a full address must have expanded to at least one zero group. -/
def v6Final (i : Nat) (ell : Bool) : Bool := if i < 16 then ell else !ell

/-- The group loop of `netip.parseIPv6`: `s` is the rest of the address
(zone already removed), `i` the number of address bytes already filled,
`ell` whether a `::` was seen.  The fuel argument only bounds the
recursion; each step consumes at least two runes, so `length + 1` fuel
is always enough. -/
def v6Rest : Nat → List Char → Nat → Bool → Bool
  | 0, _, _, _ => false
  | fuel + 1, s, i, ell =>
    if 16 ≤ i then decide (s = []) && !ell
    else
      let chunk := s.takeWhile isHexCh
      let rest := s.dropWhile isHexCh
      if chunk = [] then false
      else if 4 < chunk.length then false
      else
        match rest with
        | [] => v6Final (i + 2) ell
        | '.' :: _ =>
          ((ell || i == 12) && decide (i + 4 ≤ 16) && parseIPv4Ok s) && v6Final (i + 4) ell
        | ':' :: [] => false
        | ':' :: ':' :: rest2 =>
          if ell then false
          else if rest2 = [] then v6Final (i + 2) true
          else v6Rest fuel rest2 (i + 2) true
        | ':' :: rest2 => v6Rest fuel rest2 (i + 2) ell
        | _ => false

/-- `netip.parseIPv6`: strip a `%zone` (which must be non-empty when
present), accept a bare or leading `::`, then run the group loop. -/
def parseIPv6Ok (s0 : List Char) : Bool :=
  let s := s0.takeWhile (fun c => !(c == '%'))
  let zone := (s0.dropWhile (fun c => !(c == '%'))).drop 1
  if s0.contains '%' && zone = [] then false
  else
    match s with
    | ':' :: ':' :: rest => if rest = [] then true else v6Rest (rest.length + 1) rest 0 true
    | _ => v6Rest (s.length + 1) s 0 false

/-- `netip.ParseAddr` dispatch: the first of `.`, `:`, `%` decides the
format; none of them (or a leading `%`) is an error. -/
def parseAddrOk (s : List Char) : Bool :=
  match s.find? (fun c => c == '.' || c == ':' || c == '%') with
  | some '.' => parseIPv4Ok s
  | some ':' => parseIPv6Ok s
  | _ => false

/-- `InstallRequest` from main.go (JSON field names omitted). -/
structure InstallRequest where
  ID : Int
  Name : List Char
  IPAddress : List Char
  VMUser : List Char
  VMPassword : List Char
  DBType : List Char
  DBUser : List Char
  DBPassword : List Char
  DBName : List Char
deriving DecidableEq, Repr

/-- `InstallStatus` from main.go.  The `Timestamp` field (wall-clock
time) is not modelled. -/
structure InstallStatus where
  ID : Int
  Name : List Char
  Status : List Char
  Inventory : List Char
  AnsibleExitCode : Int
  AnsibleOutput : List Char
  Error : List Char
deriving DecidableEq, Repr

/-- `fmt`'s `%q` for the strings this program prints (quote escaping of
special runes inside the value is not modelled; the program only feeds
it the request's `db_type`). -/
def quoteGo (s : List Char) : List Char := '"' :: s ++ ['"']

/-- The `validateRequest` error for an unsupported `db_type`. -/
def dbTypeErr (t : List Char) : List Char :=
  str "unsupported db_type " ++ quoteGo t ++ str " (only \x27postgresql\x27 supported)"

/-- `validateRequest` from main.go.  Returns `none` for a valid request
and the error text of the first failing check otherwise.  The
`invalid ip_address` error carries `netip`'s own message as a suffix in
Go; the suffix is not modelled. -/
def validateRequest (r : InstallRequest) : Option (List Char) :=
  if r.ID = 0 then some (str "missing id")
  else if trimSpace r.Name = [] then some (str "missing name")
  else if parseAddrOk r.IPAddress = false then some (str "invalid ip_address")
  else if r.VMUser = [] ∨ r.VMPassword = [] then some (str "missing vm_user or vm_password")
  else if r.DBName = [] ∨ r.DBUser = [] ∨ r.DBPassword = [] then some (str "missing db creds or db_name")
  else if equalFold r.DBType (str "postgresql") = false then some (dbTypeErr r.DBType)
  else none

/-- `selectPlaybook` from main.go: switch on the trimmed, lower-cased
`db_type`. -/
def selectPlaybook (dbType : List Char) : Except (List Char) (List Char) :=
  let t := (trimSpace dbType).map goToLower
  if t = str "postgresql" ∨ t = str "postgres" ∨ t = str "pg" then
    Except.ok (str "playbooks/postgresql.yml")
  else
    Except.error (str "unsupported db_type " ++ quoteGo dbType)

/-- Decimal digit rune. -/
def digitChar : Nat → Char
  | 0 => '0' | 1 => '1' | 2 => '2' | 3 => '3' | 4 => '4'
  | 5 => '5' | 6 => '6' | 7 => '7' | 8 => '8' | 9 => '9'
  | _ => '*'

/-- Numeric value of a digit rune (left inverse of `digitChar`). -/
def charDigit (c : Char) : Nat := c.toNat - 48

/-- Decimal representation of a natural number, most significant digit
first (`fmt`'s `%d` on a non-negative value). -/
def natRepr (n : Nat) : List Char :=
  if n = 0 then ['0'] else ((Nat.digits 10 n).map digitChar).reverse

/-- `fmt`'s `%d` on a Go `int`. -/
def intRepr (i : Int) : List Char :=
  if i < 0 then '-' :: natRepr i.natAbs else natRepr i.toNat

/-- Reads a digit string back; used to prove `natRepr` injective. -/
def unrepr (l : List Char) : Nat := Nat.ofDigits 10 ((l.map charDigit).reverse)

/-- The inventory file name `fmt.Sprintf("vm_%d_%s.ini", r.ID, sanitized)`
built by `writeInventory`. -/
def vmFilename (id : Int) (name : List Char) : List Char :=
  str "vm_" ++ intRepr id ++ str "_" ++ sanitizeName name ++ str ".ini"

/-- The single inventory line written by `writeInventory`. -/
def inventoryLine (r : InstallRequest) : List Char :=
  r.IPAddress ++ str " ansible_user=" ++ r.VMUser ++ str " ansible_password=" ++ r.VMPassword ++
  str " db_name=" ++ r.DBName ++ str " db_user=" ++ r.DBUser ++ str " db_password=" ++
  r.DBPassword ++ ['\n']

/-- Result of `json.Unmarshal` on the message bytes. -/
inductive Decode where
  | ok (req : InstallRequest)
  | fail (msg : List Char)
deriving DecidableEq

/-- Outcome of the `ansible-playbook` child process (after the playbook
stat check): the context deadline fired and the process was killed, or
the process ran to completion with an exit code (`cmd.Run` returns `nil`
exactly when the code is 0 and an `*exec.ExitError` otherwise), or the
run failed with some other error (e.g. the binary could not be
started), in which case main.go reports code 1. -/
inductive ProcResult where
  | timedOut (output : List Char)
  | exited (code : Int) (output : List Char)
  | launchErr (msg : List Char) (output : List Char)
deriving DecidableEq

/-- Environment for one inbound message: the outcome of every external
call the pipeline makes.  `none` for an error field means the call
succeeds. -/
structure Env where
  decode : Decode
  mkdirErr : Option (List Char)
  writeErr : Option (List Char)
  statErr : Option (List Char)
  proc : ProcResult
deriving DecidableEq

/-- `writeInventory` from main.go: returns the path, the error (if
any), and whether the artifact file was created on disk.  `os.WriteFile`
is modelled as atomic: on failure no file is produced. -/
def writeInventory (env : Env) (r : InstallRequest) : List Char × Option (List Char) × Bool :=
  match env.mkdirErr with
  | some e => ⟨[], some (str "create inventories dir: " ++ e), false⟩
  | none =>
    let path := str "inventories/" ++ vmFilename r.ID r.Name
    match env.writeErr with
    | some e => ⟨path, some (str "write inventory file: " ++ e), false⟩
    | none => ⟨path, none, true⟩

/-- The timeout error text of `runPlaybook`
(`fmt.Errorf("ansible-playbook timed out after %s", playTimeout)`). -/
def playTimeoutMsg : List Char := str "ansible-playbook timed out after 30m0s"

/-- `runPlaybook` from main.go: exit code, captured output, error.
Missing playbook gives 127, a fired deadline 124, a completed process
its own exit code, and any other run error code 1. -/
def runPlaybook (env : Env) (inventoryPath playbookPath : List Char) :
    Int × List Char × Option (List Char) :=
  match env.statErr with
  | some e => ⟨127, [], some (str "playbook not found at " ++ playbookPath ++ str ": " ++ e)⟩
  | none =>
    match env.proc with
    | ProcResult.timedOut out => ⟨124, out, some playTimeoutMsg⟩
    | ProcResult.exited code out =>
      if code = 0 then ⟨0, out, none⟩
      else ⟨code, out, some (str "exit status " ++ intRepr code)⟩
    | ProcResult.launchErr msg out => ⟨1, out, some msg⟩

/-- What one `handleMessage` run did: the statuses handed to
`publishStatus` in order, whether the inventory artifact was ever
created, whether it still exists when the run (including the deferred
`os.Remove`) is over, and whether `runPlaybook` was reached. -/
structure Trace where
  published : List InstallStatus
  invCreated : Bool
  invFinal : Bool
  ran : Bool
deriving DecidableEq, Repr

/-- The status main.go publishes for failures that happen before
`runPlaybook`: zero exit code, no output, only the error text set. -/
def errStatus (id : Int) (name err : List Char) : InstallStatus :=
  ⟨id, name, str "error", [], 0, [], err⟩

/-- `handleMessage` from main.go, step for step: decode, validate, write
the inventory, register the deferred removal, select the playbook, run
it, classify, publish.  The deferred `os.Remove` is modelled as
succeeding, so on every path that registered it the artifact is gone at
the end. -/
def handleMessage (env : Env) : Trace :=
  match env.decode with
  | Decode.fail e => ⟨[errStatus 0 [] (str "invalid JSON: " ++ e)], false, false, false⟩
  | Decode.ok req =>
    match validateRequest req with
    | some e => ⟨[errStatus req.ID req.Name e], false, false, false⟩
    | none =>
      let w := writeInventory env req
      match w.2.1 with
      | some e => ⟨[errStatus req.ID req.Name e], w.2.2, w.2.2, false⟩
      | none =>
        match selectPlaybook req.DBType with
        | Except.error e => ⟨[⟨req.ID, req.Name, str "error", w.1, 0, [], e⟩], true, false, false⟩
        | Except.ok pb =>
          let res := runPlaybook env w.1 pb
          let failed := res.2.2.isSome || !(res.1 == 0)
          ⟨[⟨req.ID, req.Name, if failed then str "error" else str "success", w.1, res.1,
             truncate res.2.1 maxOutputBytes, res.2.2.getD []⟩], true, false, true⟩

/-- A request that is valid for the code as written (`db_type`
`"postgresql"`), matching the example of spec §8. -/
def exReqOk : InstallRequest :=
  ⟨1, str "DB Prod", str "10.0.0.5", str "root", str "x", str "postgresql", str "a", str "b", str "c"⟩

/-- The same request with the alias `"pg"` as `db_type`. -/
def exReqPg : InstallRequest :=
  ⟨1, str "DB Prod", str "10.0.0.5", str "root", str "x", str "pg", str "a", str "b", str "c"⟩

/-- A request whose IP address is not parseable (spec §8 example). -/
def exReqBadIp : InstallRequest :=
  ⟨7, str "DB Prod", str "not-an-ip", str "root", str "x", str "postgresql", str "a", str "b", str "c"⟩

/-- Environment: message bytes that do not decode. -/
def envDecodeFail : Env :=
  ⟨Decode.fail (str "unexpected end of JSON input"), none, none, none, ProcResult.exited 0 []⟩

/-- Environment: valid request, everything succeeds, tool exits 0. -/
def envRunOk : Env :=
  ⟨Decode.ok exReqOk, none, none, none, ProcResult.exited 0 (str "OK")⟩

/-- Environment: valid request, tool exits 2. -/
def envRunFail : Env :=
  ⟨Decode.ok exReqOk, none, none, none, ProcResult.exited 2 (str "fatal: ...")⟩

/-- Environment: valid request, the deadline fires. -/
def envTimeout : Env :=
  ⟨Decode.ok exReqOk, none, none, none, ProcResult.timedOut (str "PLAY [all] ...")⟩

/-- Environment: valid request but `os.MkdirAll` fails. -/
def envMkdirFail : Env :=
  ⟨Decode.ok exReqOk, some (str "permission denied"), none, none, ProcResult.exited 0 []⟩

/-- Environment: request with an unparseable IP address. -/
def envBadIp : Env :=
  ⟨Decode.ok exReqBadIp, none, none, none, ProcResult.exited 0 []⟩

/-! ### Generic list helpers -/

theorem append_ne_nil_left {l m : List Char} (h : l ≠ []) : l ++ m ≠ [] := by
  cases l with
  | nil => exact absurd rfl h
  | cons a t => simp

theorem dropWhile_eq_self_of {p : Char → Bool} {l : List Char}
    (h : ∀ c ∈ l, p c = false) : l.dropWhile p = l := by
  cases l with
  | nil => rfl
  | cons a t => simp [List.dropWhile_cons, h a (by simp)]

theorem map_eq_self_of {α : Type} {f : α → α} {l : List α}
    (h : ∀ c ∈ l, f c = c) : l.map f = l := by
  induction l with
  | nil => rfl
  | cons a t ih =>
    simp only [List.map_cons, h a (by simp), ih (fun c hc => h c (by simp [hc]))]

theorem trimSpace_eq_self {l : List Char} (h : ∀ c ∈ l, goIsSpace c = false) :
    trimSpace l = l := by
  unfold trimSpace
  rw [dropWhile_eq_self_of h, dropWhile_eq_self_of (fun c hc => h c (List.mem_reverse.mp hc)),
    List.reverse_reverse]

/-! ### sanitizeName: idempotence (C10) -/

theorem startsWith_db (t : List Char) : startsWith (str "db_" ++ t) (str "db_") = true := by
  have h : str "db_" = ['d', 'b', '_'] := rfl
  rw [h]
  simp [startsWith]

theorem sanitizeName_db (x : List Char) : startsWith (sanitizeName x) (str "db_") = true := by
  simp only [sanitizeName]
  split
  case isTrue h => exact h
  case isFalse h => exact startsWith_db _

theorem mem_sanitizeName_keep (x : List Char) :
    ∀ c ∈ sanitizeName x, sanitizeKeep c = true := by
  intro c hc
  simp only [sanitizeName] at hc
  split at hc
  case isTrue h => exact (List.mem_filter.mp hc).2
  case isFalse h =>
    rcases List.mem_append.mp hc with hdb | hf
    · have hdbl : str "db_" = ['d', 'b', '_'] := rfl
      rw [hdbl] at hdb
      have h1 : c = 'd' ∨ c = 'b' ∨ c = '_' := by simpa using hdb
      rcases h1 with rfl | rfl | rfl <;> decide
    · exact (List.mem_filter.mp hf).2

theorem keep_not_space {c : Char} (h : sanitizeKeep c = true) : goIsSpace c = false := by
  simp only [sanitizeKeep, decide_eq_true_eq] at h
  simp only [goIsSpace, decide_eq_false_iff_not]
  omega

theorem keep_lower_fix {c : Char} (h : sanitizeKeep c = true) : goToLower c = c := by
  simp only [sanitizeKeep, decide_eq_true_eq] at h
  unfold goToLower
  rw [if_neg (by omega), if_neg (by omega), if_neg (by omega)]

theorem keep_ne_space_char {c : Char} (h : sanitizeKeep c = true) : c ≠ ' ' := by
  intro h1
  rw [h1] at h
  exact absurd h (by decide)

theorem keep_ne_hyphen {c : Char} (h : sanitizeKeep c = true) : c ≠ '-' := by
  intro h1
  rw [h1] at h
  exact absurd h (by decide)

/-- C10: `sanitizeName` is idempotent: every output already starts with
the fixed `"db_"` tag and contains only runes in `[a-z0-9_]`, so a
second application changes nothing. -/
theorem sanitizeName_idem (x : List Char) :
    sanitizeName (sanitizeName x) = sanitizeName x := by
  have hall : ∀ c ∈ sanitizeName x, sanitizeKeep c = true := mem_sanitizeName_keep x
  set r := sanitizeName x with hr
  have h1 : trimSpace r = r := trimSpace_eq_self (fun c hc => keep_not_space (hall c hc))
  have h2 : r.map goToLower = r := map_eq_self_of (fun c hc => keep_lower_fix (hall c hc))
  have h3 : r.map (fun c => if c = ' ' then '_' else c) = r :=
    map_eq_self_of (fun c hc => if_neg (keep_ne_space_char (hall c hc)))
  have h4 : r.map (fun c => if c = '-' then '_' else c) = r :=
    map_eq_self_of (fun c hc => if_neg (keep_ne_hyphen (hall c hc)))
  have h5 : r.filter sanitizeKeep = r := List.filter_eq_self.mpr hall
  have h6 : startsWith r (str "db_") = true := sanitizeName_db x
  calc sanitizeName r
      = if startsWith r (str "db_") then r else str "db_" ++ r := by
        simp only [sanitizeName, h1, h2, h3, h4, h5]
    _ = r := if_pos h6

/-! ### truncate (C4) -/

/-- C4: a captured output no longer than the byte limit is published
unchanged; a longer one is cut at exactly the limit with the fixed
marker appended, so the published length is exactly the limit plus the
marker length (and `truncate` is a total function: truncation is never
an error). -/
theorem truncate_spec (s : List Char) :
    (s.length ≤ maxOutputBytes → truncate s maxOutputBytes = s) ∧
    (maxOutputBytes < s.length →
      truncate s maxOutputBytes = s.take maxOutputBytes ++ str "\n...[truncated]..." ∧
      (truncate s maxOutputBytes).length = maxOutputBytes + (str "\n...[truncated]...").length) := by
  constructor
  · intro h
    simp [truncate, h]
  · intro h
    have hn : ¬ s.length ≤ maxOutputBytes := by omega
    refine ⟨by simp [truncate, hn], ?_⟩
    simp only [truncate, hn, if_false, List.length_append, List.length_take]
    omega

/-- Witness for C4 at a concrete 10001-rune output. -/
theorem truncate_spec_witness :
    maxOutputBytes < (List.replicate 10001 'a').length ∧
    (truncate (List.replicate 10001 'a') maxOutputBytes).length =
      maxOutputBytes + (str "\n...[truncated]...").length := by
  have h : maxOutputBytes < (List.replicate 10001 'a').length := by
    rw [List.length_replicate]
    simp only [maxOutputBytes]
    omega
  exact ⟨h, ((truncate_spec (List.replicate 10001 'a')).2 h).2⟩

/-! ### Decimal representation: injectivity (towards C9) -/

theorem charDigit_digitChar {d : Nat} (h : d < 10) : charDigit (digitChar d) = d := by
  interval_cases d <;> rfl

theorem digitChar_range {d : Nat} (h : d < 10) :
    48 ≤ (digitChar d).toNat ∧ (digitChar d).toNat ≤ 57 := by
  interval_cases d <;> decide

theorem unrepr_natRepr (n : Nat) : unrepr (natRepr n) = n := by
  unfold natRepr unrepr
  by_cases h : n = 0
  · subst h
    simp [Nat.ofDigits, charDigit]
  · rw [if_neg h, List.map_reverse, List.reverse_reverse]
    have hmap : (Nat.digits 10 n).map (fun d => charDigit (digitChar d)) = Nat.digits 10 n := by
      apply map_eq_self_of
      intro d hd
      exact charDigit_digitChar (Nat.digits_lt_base (by norm_num) hd)
    rw [List.map_map]
    calc Nat.ofDigits 10 ((Nat.digits 10 n).map (charDigit ∘ digitChar))
        = Nat.ofDigits 10 (Nat.digits 10 n) := by rw [show (Nat.digits 10 n).map (charDigit ∘ digitChar) = (Nat.digits 10 n).map (fun d => charDigit (digitChar d)) from rfl, hmap]
      _ = n := Nat.ofDigits_digits 10 n

theorem natRepr_inj {a b : Nat} (h : natRepr a = natRepr b) : a = b := by
  have h2 := congrArg unrepr h
  rwa [unrepr_natRepr, unrepr_natRepr] at h2

theorem natRepr_digits {n : Nat} {c : Char} (h : c ∈ natRepr n) :
    48 ≤ c.toNat ∧ c.toNat ≤ 57 := by
  unfold natRepr at h
  split at h
  · have h1 : c = '0' := by simpa using h
    subst h1
    decide
  · rw [List.mem_reverse] at h
    obtain ⟨d, hd, rfl⟩ := List.mem_map.mp h
    exact digitChar_range (Nat.digits_lt_base (by norm_num) hd)

theorem intRepr_chars {i : Int} {c : Char} (h : c ∈ intRepr i) :
    c.toNat = 45 ∨ (48 ≤ c.toNat ∧ c.toNat ≤ 57) := by
  unfold intRepr at h
  split at h
  · rcases List.mem_cons.mp h with rfl | h1
    · left
      decide
    · right
      exact natRepr_digits h1
  · right
    exact natRepr_digits h

theorem intRepr_inj {i j : Int} (h : intRepr i = intRepr j) : i = j := by
  unfold intRepr at h
  split at h <;> split at h
  case isTrue.isTrue hi hj =>
    have h2 : natRepr i.natAbs = natRepr j.natAbs := by
      injection h
    have h3 := natRepr_inj h2
    omega
  case isTrue.isFalse hi hj =>
    have hm : '-' ∈ natRepr j.toNat := h ▸ List.mem_cons_self '-' _
    have := natRepr_digits hm
    have h45 : ('-').toNat = 45 := rfl
    omega
  case isFalse.isTrue hi hj =>
    have hm : '-' ∈ natRepr i.toNat := h.symm ▸ List.mem_cons_self '-' _
    have := natRepr_digits hm
    have h45 : ('-').toNat = 45 := rfl
    omega
  case isFalse.isFalse hi hj =>
    have h3 := natRepr_inj h
    omega

/-! ### C9: filename uniqueness -/

/-- The rune test `c ≠ '_'` used to cut the id segment back out of a
file name. -/
def notUnderscore (c : Char) : Bool := !(c == '_')

theorem takeWhile_append_stop {p : Char → Bool} {a : List Char}
    (ha : ∀ c ∈ a, p c = true) {x : Char} (hx : p x = false) (b : List Char) :
    (a ++ x :: b).takeWhile p = a := by
  induction a with
  | nil => simp [List.takeWhile_cons, hx]
  | cons c t ih =>
    simp [List.takeWhile_cons, ha c (by simp), ih (fun d hd => ha d (by simp [hd]))]

theorem intRepr_notUnderscore {i : Int} : ∀ c ∈ intRepr i, notUnderscore c = true := by
  intro c hc
  have h := intRepr_chars hc
  simp only [notUnderscore, Bool.not_eq_true', beq_eq_false_iff_ne]
  intro h1
  subst h1
  revert h
  decide

/-- C9: the inventory file name combines the numeric identifier with the
sanitized display name (`vm_<id>_<sanitized>.ini`), so two requests with
distinct identifiers get distinct artifact file names — whatever their
display names, in particular when the names are identical. -/
theorem vmFilename_inj (id1 id2 : Int) (n1 n2 : List Char) (h : id1 ≠ id2) :
    vmFilename id1 n1 ≠ vmFilename id2 n2 := by
  intro he
  apply h
  unfold vmFilename at he
  simp only [List.append_assoc] at he
  rw [show str "vm_" = ['v', 'm', '_'] from rfl, show str "_" = ['_'] from rfl] at he
  simp only [List.cons_append, List.nil_append, List.cons.injEq, true_and] at he
  have ht := congrArg (List.takeWhile notUnderscore) he
  rw [takeWhile_append_stop intRepr_notUnderscore (by decide) _,
      takeWhile_append_stop intRepr_notUnderscore (by decide) _] at ht
  exact intRepr_inj ht

/-- Witness for C9: identifiers 1 and 2 with the same display name. -/
theorem vmFilename_inj_witness : vmFilename 1 (str "DB Prod") ≠ vmFilename 2 (str "DB Prod") :=
  vmFilename_inj 1 2 (str "DB Prod") (str "DB Prod") (by decide)

/-! ### EqualFold and selectPlaybook helpers -/

/-- Plain lower-case ASCII letter other than `i`/`k` (the letters whose
case behaviour needs no Unicode special cases; every letter of
`postgresql`, `postgres` and `pg` qualifies). -/
def plainLower (c : Char) : Bool :=
  decide (97 ≤ c.toNat ∧ c.toNat ≤ 122 ∧ c.toNat ≠ 105 ∧ c.toNat ≠ 107)

theorem foldEq_plain {c d : Char} (h : foldEq c d = true) (hd : plainLower d = true) :
    goIsSpace c = false ∧ goToLower c = d := by
  simp only [foldEq, beq_iff_eq] at h
  simp only [plainLower, decide_eq_true_eq] at hd
  have hdfix : asciiLower d = d := by
    unfold asciiLower
    rw [if_neg (by omega)]
  rw [hdfix] at h
  unfold asciiLower at h
  by_cases hc : 65 ≤ c.toNat ∧ c.toNat ≤ 90
  · rw [if_pos hc] at h
    constructor
    · simp only [goIsSpace, decide_eq_false_iff_not]
      omega
    · unfold goToLower
      rw [if_pos hc]
      exact h
  · rw [if_neg hc] at h
    subst h
    constructor
    · simp only [goIsSpace, decide_eq_false_iff_not]
      omega
    · unfold goToLower
      rw [if_neg hc, if_neg (by omega), if_neg (by omega)]

theorem equalFold_nonspace_map {s t : List Char} (h : equalFold s t = true)
    (ht : t.all plainLower = true) :
    (∀ c ∈ s, goIsSpace c = false) ∧ s.map goToLower = t := by
  induction s generalizing t with
  | nil =>
    cases t with
    | nil => simp
    | cons d u => simp [equalFold] at h
  | cons c s2 ih =>
    cases t with
    | nil => simp [equalFold] at h
    | cons d u =>
      simp only [equalFold, Bool.and_eq_true] at h
      simp only [List.all_cons, Bool.and_eq_true] at ht
      obtain ⟨hsp, hlo⟩ := foldEq_plain h.1 ht.1
      obtain ⟨ihs, ihm⟩ := ih h.2 ht.2
      refine ⟨?_, by simp [List.map_cons, hlo, ihm]⟩
      intro x hx
      rcases List.mem_cons.mp hx with rfl | hx2
      · exact hsp
      · exact ihs x hx2

theorem equalFold_length {s t : List Char} (h : equalFold s t = true) :
    s.length = t.length := by
  induction s generalizing t with
  | nil =>
    cases t with
    | nil => rfl
    | cons d u => simp [equalFold] at h
  | cons c s2 ih =>
    cases t with
    | nil => simp [equalFold] at h
    | cons d u =>
      simp only [equalFold, Bool.and_eq_true] at h
      simp [ih h.2]

/-- A `db_type` that case-folds (ASCII) to one of the three accepted
aliases is mapped by `selectPlaybook` to the postgresql playbook. -/
theorem selectPlaybook_of_fold {s w : List Char} (h : equalFold s w = true)
    (hp : w.all plainLower = true)
    (hw : w = str "postgresql" ∨ w = str "postgres" ∨ w = str "pg") :
    selectPlaybook s = Except.ok (str "playbooks/postgresql.yml") := by
  obtain ⟨hns, hmap⟩ := equalFold_nonspace_map h hp
  have htrim : trimSpace s = s := trimSpace_eq_self hns
  unfold selectPlaybook
  rw [htrim, hmap, if_pos hw]

/-! ### validateRequest characterization helpers -/

theorem validate_none_iff (r : InstallRequest) :
    validateRequest r = none ↔
      (r.ID ≠ 0 ∧ trimSpace r.Name ≠ [] ∧ parseAddrOk r.IPAddress = true ∧
       r.VMUser ≠ [] ∧ r.VMPassword ≠ [] ∧ r.DBName ≠ [] ∧ r.DBUser ≠ [] ∧ r.DBPassword ≠ [] ∧
       equalFold r.DBType (str "postgresql") = true) := by
  unfold validateRequest
  constructor
  · intro h
    split_ifs at h with h1 h2 h3 h4 h5 h6
    refine ⟨h1, h2, ?_, ?_, ?_, ?_, ?_, ?_, ?_⟩
    · cases hb : parseAddrOk r.IPAddress
      · exact absurd hb h3
      · rfl
    · exact fun hx => h4 (Or.inl hx)
    · exact fun hx => h4 (Or.inr hx)
    · exact fun hx => h5 (Or.inl hx)
    · exact fun hx => h5 (Or.inr (Or.inl hx))
    · exact fun hx => h5 (Or.inr (Or.inr hx))
    · cases hb : equalFold r.DBType (str "postgresql")
      · exact absurd hb h6
      · rfl
  · rintro ⟨h1, h2, h3, h4, h5, h6, h7, h8, h9⟩
    rw [if_neg h1, if_neg h2, if_neg (by simp [h3]), if_neg (by simp [h4, h5]),
      if_neg (by simp [h6, h7, h8]), if_neg (by simp [h9])]

theorem validate_err_ne {r : InstallRequest} {e : List Char}
    (hv : validateRequest r = some e) : e ≠ [] := by
  unfold validateRequest at hv
  split_ifs at hv <;> simp only [Option.some.injEq] at hv <;> rw [← hv]
  · decide
  · decide
  · decide
  · decide
  · decide
  · unfold dbTypeErr
    exact append_ne_nil_left (append_ne_nil_left (by decide))

/-- A request that passes validation has a `db_type` that `selectPlaybook`
accepts (it folds to `postgresql`). -/
theorem select_of_validate {r : InstallRequest} (hv : validateRequest r = none) :
    selectPlaybook r.DBType = Except.ok (str "playbooks/postgresql.yml") := by
  have h := (validate_none_iff r).mp hv
  exact selectPlaybook_of_fold h.2.2.2.2.2.2.2.2 (by decide) (Or.inl rfl)

/-! ### C6: validation order and first-violation error -/

/-- C6: `validateRequest` checks identifier, trimmed name, IP address,
VM credentials, target-system credentials, and `db_type` in exactly this
order and reports the first violation; a valid request is exactly one
passing all six checks; and when validation fails, `handleMessage`
creates no inventory artifact and publishes just the error status. -/
theorem validateRequest_order (r : InstallRequest) (env : Env) :
    (r.ID = 0 → validateRequest r = some (str "missing id")) ∧
    (r.ID ≠ 0 → trimSpace r.Name = [] → validateRequest r = some (str "missing name")) ∧
    (r.ID ≠ 0 → trimSpace r.Name ≠ [] → parseAddrOk r.IPAddress = false →
      validateRequest r = some (str "invalid ip_address")) ∧
    (r.ID ≠ 0 → trimSpace r.Name ≠ [] → parseAddrOk r.IPAddress = true →
      (r.VMUser = [] ∨ r.VMPassword = []) →
      validateRequest r = some (str "missing vm_user or vm_password")) ∧
    (r.ID ≠ 0 → trimSpace r.Name ≠ [] → parseAddrOk r.IPAddress = true →
      r.VMUser ≠ [] → r.VMPassword ≠ [] →
      (r.DBName = [] ∨ r.DBUser = [] ∨ r.DBPassword = []) →
      validateRequest r = some (str "missing db creds or db_name")) ∧
    (r.ID ≠ 0 → trimSpace r.Name ≠ [] → parseAddrOk r.IPAddress = true →
      r.VMUser ≠ [] → r.VMPassword ≠ [] → r.DBName ≠ [] → r.DBUser ≠ [] → r.DBPassword ≠ [] →
      equalFold r.DBType (str "postgresql") = false →
      validateRequest r = some (dbTypeErr r.DBType)) ∧
    (validateRequest r = none ↔
      (r.ID ≠ 0 ∧ trimSpace r.Name ≠ [] ∧ parseAddrOk r.IPAddress = true ∧
       r.VMUser ≠ [] ∧ r.VMPassword ≠ [] ∧ r.DBName ≠ [] ∧ r.DBUser ≠ [] ∧ r.DBPassword ≠ [] ∧
       equalFold r.DBType (str "postgresql") = true)) ∧
    (∀ e req2, env.decode = Decode.ok req2 → validateRequest req2 = some e →
      (handleMessage env).invCreated = false ∧
      (handleMessage env).published = [errStatus req2.ID req2.Name e]) := by
  refine ⟨?_, ?_, ?_, ?_, ?_, ?_, validate_none_iff r, ?_⟩
  · intro h1
    unfold validateRequest
    rw [if_pos h1]
  · intro h1 h2
    unfold validateRequest
    rw [if_neg h1, if_pos h2]
  · intro h1 h2 h3
    unfold validateRequest
    rw [if_neg h1, if_neg h2, if_pos h3]
  · intro h1 h2 h3 h4
    unfold validateRequest
    rw [if_neg h1, if_neg h2, if_neg (by simp [h3]), if_pos h4]
  · intro h1 h2 h3 h4 h5 h6
    unfold validateRequest
    rw [if_neg h1, if_neg h2, if_neg (by simp [h3]), if_neg (by simp [h4, h5]), if_pos h6]
  · intro h1 h2 h3 h4 h5 h6 h7 h8 h9
    unfold validateRequest
    rw [if_neg h1, if_neg h2, if_neg (by simp [h3]), if_neg (by simp [h4, h5]),
      if_neg (by simp [h6, h7, h8]), if_pos h9]
  · intro e req2 hdec hval
    rcases env with ⟨dec, mkE, wrE, stE, pr⟩
    obtain rfl : dec = Decode.ok req2 := hdec
    constructor <;> simp [handleMessage, hval]

/-- Witness for C6: a request whose first violation is the IP address
check (identifier and name pass, IP is `"not-an-ip"`). -/
theorem validateRequest_order_witness :
    validateRequest exReqBadIp = some (str "invalid ip_address") :=
  (validateRequest_order exReqBadIp envBadIp).2.2.1 (by decide) (by decide) (by decide)

/-! ### C7: db_type aliases (corrected) -/

/-- C7 counterexample: the request `exReqPg` is otherwise valid and its
`db_type` is the alias `"pg"`, which `selectPlaybook` recognizes, yet
`validateRequest` rejects it; with `"postgresql"` instead it passes. -/
theorem validateRequest_rejects_pg_alias :
    validateRequest exReqPg ≠ none ∧
    selectPlaybook exReqPg.DBType = Except.ok (str "playbooks/postgresql.yml") ∧
    validateRequest exReqOk = none := by
  refine ⟨by decide, rfl, by decide⟩

/-- C7 (amended): among otherwise-valid requests, `validateRequest`
accepts exactly those whose `db_type` equals `"postgresql"` up to ASCII
case; the aliases `"postgres"` and `"pg"` are recognized only by
`selectPlaybook`, while `validateRequest` rejects them. -/
theorem validateRequest_dbtype_amended (r : InstallRequest)
    (h1 : r.ID ≠ 0) (h2 : trimSpace r.Name ≠ []) (h3 : parseAddrOk r.IPAddress = true)
    (h4 : r.VMUser ≠ []) (h5 : r.VMPassword ≠ []) (h6 : r.DBName ≠ [])
    (h7 : r.DBUser ≠ []) (h8 : r.DBPassword ≠ []) :
    (validateRequest r = none ↔ equalFold r.DBType (str "postgresql") = true) ∧
    ((equalFold r.DBType (str "postgres") = true ∨ equalFold r.DBType (str "pg") = true) →
      validateRequest r ≠ none ∧
      selectPlaybook r.DBType = Except.ok (str "playbooks/postgresql.yml")) := by
  have hiff : validateRequest r = none ↔ equalFold r.DBType (str "postgresql") = true := by
    rw [validate_none_iff r]
    constructor
    · exact fun h => h.2.2.2.2.2.2.2.2
    · exact fun h9 => ⟨h1, h2, h3, h4, h5, h6, h7, h8, h9⟩
  refine ⟨hiff, ?_⟩
  intro ha
  constructor
  · intro hnone
    have h9 := hiff.mp hnone
    have hl9 := equalFold_length h9
    have hlq : (str "postgresql").length = 10 := by decide
    rcases ha with ha | ha
    · have hl := equalFold_length ha
      have : (str "postgres").length = 8 := by decide
      omega
    · have hl := equalFold_length ha
      have : (str "pg").length = 2 := by decide
      omega
  · rcases ha with ha | ha
    · exact selectPlaybook_of_fold ha (by decide) (Or.inr (Or.inl rfl))
    · exact selectPlaybook_of_fold ha (by decide) (Or.inr (Or.inr rfl))

/-- Witness for C7's amended claim at the concrete request `exReqPg`. -/
theorem validateRequest_dbtype_amended_witness :
    validateRequest exReqPg ≠ none ∧
    selectPlaybook exReqPg.DBType = Except.ok (str "playbooks/postgresql.yml") :=
  (validateRequest_dbtype_amended exReqPg (by decide) (by decide) (by decide) (by decide)
    (by decide) (by decide) (by decide) (by decide)).2 (Or.inr (by decide))

/-! ### C1: exactly one status per message -/

/-- C1: every inbound message — decode failure, validation failure,
inventory failure, playbook-selection failure, or a run that reaches the
process runner with any outcome — leads to exactly one published status;
and when the run never reached `runPlaybook`, that status has exit code
zero, no output, status `"error"`, and a non-empty error text. -/
theorem handleMessage_one_status (env : Env) :
    (handleMessage env).published.length = 1 ∧
    ((handleMessage env).ran = false →
      ∀ st ∈ (handleMessage env).published,
        st.AnsibleExitCode = 0 ∧ st.AnsibleOutput = [] ∧ st.Status = str "error" ∧ st.Error ≠ []) := by
  rcases env with ⟨dec, mkE, wrE, stE, pr⟩
  cases dec with
  | fail e =>
    refine ⟨rfl, ?_⟩
    intro _ st hst
    simp only [handleMessage, List.mem_singleton] at hst
    subst hst
    exact ⟨rfl, rfl, rfl, append_ne_nil_left (by decide)⟩
  | ok req =>
    cases hv : validateRequest req with
    | some e =>
      refine ⟨by simp [handleMessage, hv], ?_⟩
      intro _ st hst
      simp only [handleMessage, hv, List.mem_singleton] at hst
      subst hst
      exact ⟨rfl, rfl, rfl, validate_err_ne hv⟩
    | none =>
      cases mkE with
      | some e =>
        refine ⟨by simp [handleMessage, hv, writeInventory], ?_⟩
        intro _ st hst
        simp only [handleMessage, hv, writeInventory, List.mem_singleton] at hst
        subst hst
        exact ⟨rfl, rfl, rfl, append_ne_nil_left (by decide)⟩
      | none =>
        cases wrE with
        | some e =>
          refine ⟨by simp [handleMessage, hv, writeInventory], ?_⟩
          intro _ st hst
          simp only [handleMessage, hv, writeInventory, List.mem_singleton] at hst
          subst hst
          exact ⟨rfl, rfl, rfl, append_ne_nil_left (by decide)⟩
        | none =>
          have hsel := select_of_validate hv
          refine ⟨by simp [handleMessage, hv, writeInventory, hsel], ?_⟩
          intro h
          simp [handleMessage, hv, writeInventory, hsel] at h

/-- Witness for C1 at a concrete decode failure. -/
theorem handleMessage_one_status_witness :
    (handleMessage envDecodeFail).published.length = 1 ∧
    ((errStatus 0 [] (str "invalid JSON: " ++ str "unexpected end of JSON input")).AnsibleExitCode = 0 ∧
     (errStatus 0 [] (str "invalid JSON: " ++ str "unexpected end of JSON input")).AnsibleOutput = [] ∧
     (errStatus 0 [] (str "invalid JSON: " ++ str "unexpected end of JSON input")).Status = str "error" ∧
     (errStatus 0 [] (str "invalid JSON: " ++ str "unexpected end of JSON input")).Error ≠ []) :=
  ⟨(handleMessage_one_status envDecodeFail).1,
   (handleMessage_one_status envDecodeFail).2 rfl _ (by decide)⟩

/-! ### C2: the inventory artifact never survives a run -/

/-- C2: after any `handleMessage` run the inventory artifact no longer
exists — on paths that wrote it the deferred removal deletes it, and
when `writeInventory` itself fails (directory creation or file write) no
artifact is produced at all. -/
theorem handleMessage_inventory_gone (env : Env) :
    (handleMessage env).invFinal = false ∧
    (∀ r, ((writeInventory env r).2.1).isSome = true → (writeInventory env r).2.2 = false) := by
  rcases env with ⟨dec, mkE, wrE, stE, pr⟩
  constructor
  · cases dec with
    | fail e => rfl
    | ok req =>
      cases hv : validateRequest req with
      | some e => simp [handleMessage, hv]
      | none =>
        cases mkE with
        | some e => simp [handleMessage, hv, writeInventory]
        | none =>
          cases wrE with
          | some e => simp [handleMessage, hv, writeInventory]
          | none =>
            have hsel := select_of_validate hv
            simp [handleMessage, hv, writeInventory, hsel]
  · intro r
    cases mkE with
    | some e => intro _; rfl
    | none =>
      cases wrE with
      | some e => intro _; rfl
      | none =>
        intro h
        simp [writeInventory] at h

/-- Witness for C2: a run whose `os.MkdirAll` fails writes no artifact. -/
theorem handleMessage_inventory_gone_witness :
    (handleMessage envMkdirFail).invFinal = false ∧
    (writeInventory envMkdirFail exReqOk).2.2 = false :=
  ⟨(handleMessage_inventory_gone envMkdirFail).1,
   (handleMessage_inventory_gone envMkdirFail).2 exReqOk rfl⟩

/-! ### C8: decode failure -/

/-- C8: a message whose bytes fail to decode leads to no further
processing (no artifact, no process run) and to one published status
with identifier 0, empty name, status `"error"`, and the decode error
text. -/
theorem handleMessage_decode_fail (env : Env) (e : List Char)
    (h : env.decode = Decode.fail e) :
    ∃ st, (handleMessage env).published = [st] ∧
      st.ID = 0 ∧ st.Name = [] ∧ st.Status = str "error" ∧
      st.Error = str "invalid JSON: " ++ e ∧
      st.AnsibleExitCode = 0 ∧ st.AnsibleOutput = [] ∧
      (handleMessage env).invCreated = false ∧ (handleMessage env).ran = false := by
  rcases env with ⟨dec, mkE, wrE, stE, pr⟩
  obtain rfl : dec = Decode.fail e := h
  exact ⟨errStatus 0 [] (str "invalid JSON: " ++ e), rfl, rfl, rfl, rfl, rfl, rfl, rfl, rfl, rfl⟩

/-- Witness for C8 at a concrete undecodable message. -/
theorem handleMessage_decode_fail_witness :
    ∃ st, (handleMessage envDecodeFail).published = [st] ∧
      st.ID = 0 ∧ st.Name = [] ∧ st.Status = str "error" ∧
      st.Error = str "invalid JSON: " ++ str "unexpected end of JSON input" ∧
      st.AnsibleExitCode = 0 ∧ st.AnsibleOutput = [] ∧
      (handleMessage envDecodeFail).invCreated = false ∧ (handleMessage envDecodeFail).ran = false :=
  handleMessage_decode_fail envDecodeFail (str "unexpected end of JSON input") rfl

/-! ### C3: exit-code classification -/

/-- C3: for a run that reaches process execution and whose tool exits
with code `code`, the published status is `"success"` exactly when
`code = 0` and `"error"` otherwise, the published `ansible_exit_code` is
the tool's own code, and the (possibly truncated) captured output is
attached. -/
theorem handleMessage_exit_classification (env : Env) (req : InstallRequest)
    (code : Int) (out : List Char)
    (hdec : env.decode = Decode.ok req) (hval : validateRequest req = none)
    (hmk : env.mkdirErr = none) (hwr : env.writeErr = none) (hst : env.statErr = none)
    (hpr : env.proc = ProcResult.exited code out) :
    ∃ st, (handleMessage env).published = [st] ∧
      st.Status = (if code = 0 then str "success" else str "error") ∧
      st.AnsibleExitCode = code ∧
      st.AnsibleOutput = truncate out maxOutputBytes := by
  rcases env with ⟨dec, mkE, wrE, stE, pr⟩
  obtain rfl : dec = Decode.ok req := hdec
  obtain rfl : mkE = none := hmk
  obtain rfl : wrE = none := hwr
  obtain rfl : stE = none := hst
  obtain rfl : pr = ProcResult.exited code out := hpr
  have hsel := select_of_validate hval
  by_cases hc : code = 0
  · subst hc
    simp only [handleMessage, hval, hsel, writeInventory, runPlaybook]
    exact ⟨_, rfl, by simp, rfl, rfl⟩
  · simp only [handleMessage, hval, hsel, writeInventory, runPlaybook, if_neg hc]
    exact ⟨_, rfl, rfl, rfl, rfl⟩

/-- Witness for C3: the spec §8 example request with the tool exiting 0,
and the same run with exit code 2. -/
theorem handleMessage_exit_classification_witness :
    (∃ st, (handleMessage envRunOk).published = [st] ∧
      st.Status = (if (0 : Int) = 0 then str "success" else str "error") ∧
      st.AnsibleExitCode = 0 ∧
      st.AnsibleOutput = truncate (str "OK") maxOutputBytes) ∧
    (∃ st, (handleMessage envRunFail).published = [st] ∧
      st.Status = (if (2 : Int) = 0 then str "success" else str "error") ∧
      st.AnsibleExitCode = 2 ∧
      st.AnsibleOutput = truncate (str "fatal: ...") maxOutputBytes) :=
  ⟨handleMessage_exit_classification envRunOk exReqOk 0 (str "OK") rfl (by decide)
      rfl rfl rfl rfl,
   handleMessage_exit_classification envRunFail exReqOk 2 (str "fatal: ...") rfl (by decide)
      rfl rfl rfl rfl⟩

/-! ### C5: timeout classification -/

/-- C5: a tool invocation that does not exit before the deadline is
classified as a timeout: the published status is `"error"` (never
`"success"`), the exit code is the distinguished timeout code 124, and
the output captured so far is attached (truncated if needed). -/
theorem handleMessage_timeout (env : Env) (req : InstallRequest) (out : List Char)
    (hdec : env.decode = Decode.ok req) (hval : validateRequest req = none)
    (hmk : env.mkdirErr = none) (hwr : env.writeErr = none) (hst : env.statErr = none)
    (hpr : env.proc = ProcResult.timedOut out) :
    ∃ st, (handleMessage env).published = [st] ∧
      st.Status = str "error" ∧ st.Status ≠ str "success" ∧
      st.AnsibleExitCode = 124 ∧
      st.AnsibleOutput = truncate out maxOutputBytes := by
  rcases env with ⟨dec, mkE, wrE, stE, pr⟩
  obtain rfl : dec = Decode.ok req := hdec
  obtain rfl : mkE = none := hmk
  obtain rfl : wrE = none := hwr
  obtain rfl : stE = none := hst
  obtain rfl : pr = ProcResult.timedOut out := hpr
  have hsel := select_of_validate hval
  simp only [handleMessage, hval, hsel, writeInventory, runPlaybook]
  have h1 : str "error" ≠ str "success" := by decide
  exact ⟨_, rfl, rfl, h1, rfl, rfl⟩

/-- Witness for C5 at a concrete timed-out run. -/
theorem handleMessage_timeout_witness :
    ∃ st, (handleMessage envTimeout).published = [st] ∧
      st.Status = str "error" ∧ st.Status ≠ str "success" ∧
      st.AnsibleExitCode = 124 ∧
      st.AnsibleOutput = truncate (str "PLAY [all] ...") maxOutputBytes :=
  handleMessage_timeout envTimeout exReqOk (str "PLAY [all] ...") rfl (by decide) rfl rfl rfl rfl
